import Mathlib

/-!
Shallow embedding of the URL-shortener storage engine of this repository
(`src/acortador.js`): the JSON-file "database" module (lines 291-391) and the
shorten / redirect request flows that call it (lines 60-129).

Modelling conventions:
* A `UrlRecord` is the JS object pushed into `db.urls` (original, short, code,
  createdAt, clicks).  `clicks` is a `Nat` (the JS code only ever stores 0 and
  increments).
* `db.codes` is a JS object used as a string-to-string map; it is modelled as
  an insertion-ordered association list with unique keys (`objGet`/`objSet`
  mirror property read and property assignment).
* The backing file is modelled by `FileState`: absent, present with content
  that parses as a store (`Content.good`), or present with content that
  `JSON.parse` / field access throws on (`Content.bad`).
* The advisory lock (`lockfile` package, lines 294-303) is modelled by a
  Boolean `locked` in `SysState`: `true` means the lock file exists.
* Each database operation returns a `DbResult`: the JS return value or thrown
  error (`JsResult`), the final `SysState`, and the list of lock/file events
  (`Ev`) the operation performed, in order, so that critical-section claims
  can be stated.
-/

/-- One entry of the `db.urls` array (`urlData` object, src/acortador.js
lines 85-91). -/
structure UrlRecord where
  original : String
  short : String
  code : String
  createdAt : String
  clicks : Nat
deriving DecidableEq, Repr

/-- The parsed content of `urls.json`: the `urls` array and the `codes`
object (src/acortador.js line 317: initial value, lines 363-371: how `saveUrl`
maintains both). -/
structure Store where
  urls : List UrlRecord
  codes : List (String × String)
deriving DecidableEq, Repr

/-- The empty structure `\x7b urls: [], codes: \x7b\x7d \x7d` written by `initDB`
(src/acortador.js line 317) and produced by the `readFile` fallback
(line 331). -/
def emptyStore : Store := { urls := [], codes := [] }

/-- JS object property read `obj[k]`: the stored value, or `none` for
`undefined` (src/acortador.js line 359: `db.codes[shortCode]`). -/
def objGet (l : List (String × String)) (k : String) : Option String :=
  l.lookup k

/-- JS object property assignment `obj[k] = v`: overwrites the value in place
when the key exists (keeping its position), otherwise appends the new entry
(src/acortador.js line 367: `db.codes[urlData.code] = urlData.original`). -/
def objSet (l : List (String × String)) (k v : String) : List (String × String) :=
  if l.any (fun p => p.1 == k) then
    l.map (fun p => if p.1 == k then (k, v) else p)
  else
    l ++ [(k, v)]

/-- Content of the backing file `urls.json` as the read path classifies it:
either it deserializes to a `Store`, or reading its text succeeds but parsing
or store-field access throws (`JSON.parse` at src/acortador.js line 333). -/
inductive Content where
  | good (s : Store)
  | bad
deriving DecidableEq, Repr

/-- Whether the backing file exists, and with what content. -/
inductive FileState where
  | absent
  | present (c : Content)
deriving DecidableEq, Repr

/-- Errors a database operation can throw: the `lockfile` wait timeout
(src/acortador.js lines 326/343, `wait: 1000`) or the `JSON.parse` failure
(line 333). -/
inductive DbError where
  | lockTimeout
  | parseError
deriving DecidableEq, Repr

/-- Lock and file events an operation performs, in order: lock-file creation
(`lock`), lock-file removal (`unlock`), reading `urls.json`, writing
`urls.json`. -/
inductive Ev where
  | acquire
  | release
  | readF
  | writeF
deriving DecidableEq, Repr

/-- The shared on-disk state: the backing file and whether the lock file
exists. -/
structure SysState where
  file : FileState
  locked : Bool
deriving DecidableEq, Repr

/-- Outcome of an async JS call: resolved value or thrown error. -/
inductive JsResult (α : Type) where
  | ok (a : α)
  | err (e : DbError)
deriving DecidableEq, Repr

/-- What one database operation produces: its JS result, the final shared
state, and the ordered trace of lock/file events it performed. -/
structure DbResult (α : Type) where
  res : JsResult α
  st : SysState
  tr : List Ev

/-- `readDB` (src/acortador.js lines 323-338): acquire the lock (wait up to
1000ms), read `urls.json` — substituting the empty-structure string only when
the *read* fails, e.g. the file is absent (line 331) — then `JSON.parse` the
text (line 333, outside the catch: a parse failure propagates), and in a
`finally` remove the lock file unconditionally, swallowing unlock errors
(line 336).  When the lock is already held (by a holder that never yields
within the wait), `lock` throws and the `finally` still removes the lock
file. -/
def readDB (st : SysState) : DbResult Store :=
  if st.locked then
    { res := .err .lockTimeout, st := { st with locked := false }, tr := [Ev.release] }
  else
    match st.file with
    | .absent =>
      { res := .ok emptyStore, st := { st with locked := false },
        tr := [Ev.acquire, Ev.readF, Ev.release] }
    | .present (.good s) =>
      { res := .ok s, st := { st with locked := false },
        tr := [Ev.acquire, Ev.readF, Ev.release] }
    | .present .bad =>
      { res := .err .parseError, st := { st with locked := false },
        tr := [Ev.acquire, Ev.readF, Ev.release] }

/-- `writeDB` (src/acortador.js lines 341-348): acquire the lock, overwrite
`urls.json` with the serialized store, and in a `finally` remove the lock file
unconditionally. -/
def writeDB (d : Store) (st : SysState) : DbResult Unit :=
  if st.locked then
    { res := .err .lockTimeout, st := { st with locked := false }, tr := [Ev.release] }
  else
    { res := .ok (), st := { file := .present (.good d), locked := false },
      tr := [Ev.acquire, Ev.writeF, Ev.release] }

/-- `initDB` (src/acortador.js lines 306-320): ensure the data directory
exists, then `fs.access` the file; only if that check throws (file absent) is
the empty structure written.  An existing file, whatever its content, is left
untouched.  (The always-succeeding `mkdir recursive` is not represented in
`SysState`.) -/
def initDB (st : SysState) : SysState :=
  match st.file with
  | .absent => { st with file := .present (.good emptyStore) }
  | .present _ => st

/-- `findUrl` (src/acortador.js lines 351-354): `readDB`, then
`db.urls.find(item => item.original === originalUrl)` — first match in array
order, `undefined` when none. -/
def findUrl (originalUrl : String) (st : SysState) : DbResult (Option UrlRecord) :=
  let r := readDB st
  match r.res with
  | .ok db =>
    { res := .ok (db.urls.find? (fun item => item.original == originalUrl)),
      st := r.st, tr := r.tr }
  | .err e => { res := .err e, st := r.st, tr := r.tr }

/-- `findCode` (src/acortador.js lines 357-360): `readDB`, then the property
read `db.codes[shortCode]`. -/
def findCode (shortCode : String) (st : SysState) : DbResult (Option String) :=
  let r := readDB st
  match r.res with
  | .ok db => { res := .ok (objGet db.codes shortCode), st := r.st, tr := r.tr }
  | .err e => { res := .err e, st := r.st, tr := r.tr }

/-- The pure store transformation performed by `saveUrl` (src/acortador.js
lines 366-367): push `urlData` onto `db.urls` and set
`db.codes[urlData.code] = urlData.original`.  No duplicate check of any
kind. -/
def saveUrlStore (urlData : UrlRecord) (db : Store) : Store :=
  { urls := db.urls ++ [urlData],
    codes := objSet db.codes urlData.code urlData.original }

/-- `saveUrl` (src/acortador.js lines 363-371): `readDB` (one lock section),
mutate the in-memory copy, `writeDB` (a second lock section), and return the
record that was passed in. -/
def saveUrl (urlData : UrlRecord) (st : SysState) : DbResult UrlRecord :=
  let r := readDB st
  match r.res with
  | .ok db =>
    let w := writeDB (saveUrlStore urlData db) r.st
    match w.res with
    | .ok _ => { res := .ok urlData, st := w.st, tr := r.tr ++ w.tr }
    | .err e => { res := .err e, st := w.st, tr := r.tr ++ w.tr }
  | .err e => { res := .err e, st := r.st, tr := r.tr }

/-- In-place mutation `url.clicks = (url.clicks || 0) + 1` applied to the
first array element whose `code` matches, as `Array.prototype.find` selects it
(src/acortador.js lines 376-379); the identity when no element matches. -/
def incFirst (code : String) : List UrlRecord → List UrlRecord
  | [] => []
  | r :: rs =>
    if r.code == code then { r with clicks := r.clicks + 1 } :: rs
    else r :: incFirst code rs

/-- The pure store transformation performed by `registerClick` when the code
is present. -/
def registerClickStore (code : String) (db : Store) : Store :=
  { db with urls := incFirst code db.urls }

/-- `registerClick` (src/acortador.js lines 374-382): `readDB`, find the
record by code; if found, increment its `clicks` and `writeDB`; if not found,
return without writing (no error). -/
def registerClick (code : String) (st : SysState) : DbResult Unit :=
  let r := readDB st
  match r.res with
  | .ok db =>
    match db.urls.find? (fun item => item.code == code) with
    | some _ =>
      let w := writeDB (registerClickStore code db) r.st
      { res := w.res, st := w.st, tr := r.tr ++ w.tr }
    | none => { res := .ok (), st := r.st, tr := r.tr }
  | .err e => { res := .err e, st := r.st, tr := r.tr }

/-- The state component of `registerClick`, for sequential iteration. -/
def registerClickState (code : String) (st : SysState) : SysState :=
  (registerClick code st).st

/-- A system state whose file holds a well-formed store and whose lock is
free: the normal state between operations. -/
def goodSt (s : Store) : SysState := { file := .present (.good s), locked := false }

/-- The base-36 digit characters `Number.prototype.toString(36)` uses:
digits then lowercase letters. -/
def base36Digits : List Char := "0123456789abcdefghijklmnopqrstuvwxyz".toList

/-- The character for one base-36 digit. -/
def digitChar36 (d : Fin 36) : Char := base36Digits.getD d.val '0'

/-- `Math.random().toString(36)` (src/acortador.js line 81), with the random
double in `[0, 1)` represented by the finite list of base-36 digits of its
fractional expansion, trailing zeros omitted (a double is a dyadic rational,
so the expansion terminates; the empty list represents the value 0).  The
rendered string is `"0"` for the value 0 and `"0." ++ digits` otherwise. -/
def randToString36Chars (digits : List (Fin 36)) : List Char :=
  if digits.isEmpty then ['0']
  else '0' :: '.' :: digits.map digitChar36

/-- `.substring(2, 8)` applied to that string: the characters at indices
2 to 7, fewer when the string is shorter (src/acortador.js line 81). -/
def generateCodeChars (digits : List (Fin 36)) : List Char :=
  ((randToString36Chars digits).drop 2).take 6

/-- The full code-generation step
`Math.random().toString(36).substring(2, 8)`. -/
def generateCode (digits : List (Fin 36)) : String :=
  String.mk (generateCodeChars digits)

/-- JS truthiness of `await findCode(code)` in the do-while condition
(src/acortador.js line 82): `undefined` and the empty string are falsy, any
other string is truthy. -/
def truthyStr : Option String → Bool
  | none => false
  | some s => s != ""

/-- The do-while generation loop of the shorten handler (src/acortador.js
lines 80-82), with the stream of random draws represented by the list of
candidate codes it would produce in order: keep drawing while the candidate's
`findCode` lookup is truthy; return the first free candidate.  Each iteration
performs a fresh `findCode` against the current state; a thrown database error
propagates.  `ok none` is the modelling artifact for exhausting the finite
candidate list (the source loops forever). -/
def genLoop : List String → SysState → JsResult (Option String) × SysState
  | [], st => (.ok none, st)
  | c :: cs, st =>
    let r := findCode c st
    match r.res with
    | .ok v => if truthyStr v then genLoop cs r.st else (.ok (some c), r.st)
    | .err e => (.err e, r.st)

/-- The pure residue of the generation loop over a fixed store: first
candidate whose `codes` lookup is falsy. -/
def pickCode : List String → Store → Option String
  | [], _ => none
  | c :: cs, db => if truthyStr (objGet db.codes c) then pickCode cs db else some c

/-- What the shorten handler replies with (src/acortador.js lines 71-77 and
95-99), carrying the record the reply fields are taken from; `exhausted` is
the modelling artifact for running out of candidate codes. -/
inductive ShortenRes where
  | existing (r : UrlRecord)
  | created (r : UrlRecord)
  | exhausted
deriving DecidableEq, Repr

/-- The storage-relevant part of the `POST /api/shorten` handler
(src/acortador.js lines 60-103), entered with the already-validated URL:
`findUrl`; if a record exists reply with it; otherwise run the generation
loop, build `urlData` with `clicks = 0` and
`short = BASE_URL ++ "/r/" ++ code`, `saveUrl` it, and reply with the new
record.  Thrown database errors propagate (to the handler's catch). -/
def shorten (cands : List String) (baseUrl validatedUrl createdAt : String)
    (st : SysState) : JsResult ShortenRes × SysState :=
  let f := findUrl validatedUrl st
  match f.res with
  | .err e => (.err e, f.st)
  | .ok (some r) => (.ok (.existing r), f.st)
  | .ok none =>
    match genLoop cands f.st with
    | (.ok (some code), st2) =>
      let shortUrl := baseUrl ++ "/r/" ++ code
      let urlData : UrlRecord :=
        { original := validatedUrl, short := shortUrl, code := code,
          createdAt := createdAt, clicks := 0 }
      let w := saveUrl urlData st2
      match w.res with
      | .ok r => (.ok (.created r), w.st)
      | .err e => (.err e, w.st)
    | (.ok none, st2) => (.ok .exhausted, st2)
    | (.err e, st2) => (.err e, st2)

/-- The codes of a store's record sequence, in order. -/
def codesOf (s : Store) : List String := s.urls.map (fun r => r.code)

/-- The original URLs of a store's record sequence, in order. -/
def originalsOf (s : Store) : List String := s.urls.map (fun r => r.original)

/-- The uniqueness invariant claimed by the spec: no two records of the
sequence share a `code`, and no two share an `original`. -/
def UniqStore (s : Store) : Prop := (codesOf s).Nodup ∧ (originalsOf s).Nodup

instance (s : Store) : Decidable (UniqStore s) := by
  unfold UniqStore; infer_instance

/-- Store states reachable from the empty store through the mutating storage
operations, each applied with arbitrary arguments (the read-only operations
`findUrl`/`findCode` and an `initDB` on an existing file leave the store
unchanged). -/
inductive Reachable : Store → Prop where
  | init : Reachable emptyStore
  | save (d : UrlRecord) {s : Store} : Reachable s → Reachable (saveUrlStore d s)
  | click (c : String) {s : Store} : Reachable s → Reachable (registerClickStore c s)

/-- Store states reachable from the empty store when every insert is guarded
the way the sequential shorten flow guards it: the inserted record's code and
original are absent from the store at insertion time. -/
inductive ReachableFresh : Store → Prop where
  | init : ReachableFresh emptyStore
  | save (d : UrlRecord) {s : Store} : ReachableFresh s →
      d.code ∉ codesOf s → d.original ∉ originalsOf s →
      ReachableFresh (saveUrlStore d s)
  | click (c : String) {s : Store} : ReachableFresh s →
      ReachableFresh (registerClickStore c s)

/-- The `urlData` object as the shorten handler builds it (src/acortador.js
lines 85-91): fresh record with `clicks = 0`. -/
def mkUrlData (u shortUrl c t : String) : UrlRecord :=
  { original := u, short := shortUrl, code := c, createdAt := t, clicks := 0 }

/-- Sample record for concrete evaluations. -/
def recEx : UrlRecord :=
  { original := "https://example.com/", short := "B/r/abc123", code := "abc123",
    createdAt := "t0", clicks := 0 }

/-- Sample one-record store (index consistent with the record). -/
def storeEx : Store :=
  { urls := [recEx], codes := [("abc123", "https://example.com/")] }

/-- A second record with the same `original` as `recEx` but another code. -/
def recDup : UrlRecord :=
  { original := "https://example.com/", short := "B/r/zz9999", code := "zz9999",
    createdAt := "t1", clicks := 0 }

/-- Two records sharing one `original`, with distinct codes. -/
def dupA : UrlRecord :=
  { original := "https://example.com/", short := "B/r/c10000", code := "c10000",
    createdAt := "t0", clicks := 0 }

/-- See `dupA`. -/
def dupB : UrlRecord :=
  { original := "https://example.com/", short := "B/r/c20000", code := "c20000",
    createdAt := "t1", clicks := 0 }

/-! ### Helper lemmas -/

theorem find?_append_of_none {α : Type} {p : α → Bool} {l₁ l₂ : List α}
    (h : l₁.find? p = none) : (l₁ ++ l₂).find? p = l₂.find? p := by
  rw [List.find?_append, h]; rfl

theorem incFirst_map_code (c : String) (l : List UrlRecord) :
    (incFirst c l).map (fun r => r.code) = l.map (fun r => r.code) := by
  induction l with
  | nil => rfl
  | cons r rs ih =>
    simp only [incFirst]
    split <;> simp [ih]

theorem incFirst_map_original (c : String) (l : List UrlRecord) :
    (incFirst c l).map (fun r => r.original) = l.map (fun r => r.original) := by
  induction l with
  | nil => rfl
  | cons r rs ih =>
    simp only [incFirst]
    split <;> simp [ih]

theorem incFirst_of_find?_none {c : String} {l : List UrlRecord}
    (h : l.find? (fun x => x.code == c) = none) : incFirst c l = l := by
  induction l with
  | nil => rfl
  | cons r rs ih =>
    cases hp : (r.code == c) with
    | true => simp [List.find?_cons, hp] at h
    | false =>
      simp only [List.find?_cons, hp, if_false, Bool.false_eq_true] at h
      simp [incFirst, hp, ih h]

theorem find?_incFirst {c : String} {l : List UrlRecord} {r : UrlRecord}
    (h : l.find? (fun x => x.code == c) = some r) :
    (incFirst c l).find? (fun x => x.code == c) =
      some { r with clicks := r.clicks + 1 } := by
  induction l with
  | nil => simp at h
  | cons a rs ih =>
    cases hp : (a.code == c) with
    | true =>
      simp only [List.find?_cons, hp, if_true] at h
      cases h
      simp [incFirst, List.find?_cons, hp]
    | false =>
      simp only [List.find?_cons, hp, if_false, Bool.false_eq_true] at h
      simp only [incFirst, hp, Bool.false_eq_true, if_false]
      simp [List.find?_cons, hp, ih h]

theorem readDB_good (s : Store) :
    readDB (goodSt s) = ⟨.ok s, goodSt s, [Ev.acquire, Ev.readF, Ev.release]⟩ := rfl

theorem writeDB_good (d s : Store) :
    writeDB d (goodSt s) = ⟨.ok (), goodSt d, [Ev.acquire, Ev.writeF, Ev.release]⟩ := rfl

theorem findUrl_good (u : String) (s : Store) :
    findUrl u (goodSt s) =
      ⟨.ok (s.urls.find? (fun item => item.original == u)), goodSt s,
       [Ev.acquire, Ev.readF, Ev.release]⟩ := rfl

theorem findCode_good (c : String) (s : Store) :
    findCode c (goodSt s) =
      ⟨.ok (objGet s.codes c), goodSt s, [Ev.acquire, Ev.readF, Ev.release]⟩ := rfl

theorem saveUrl_good (d : UrlRecord) (s : Store) :
    saveUrl d (goodSt s) =
      ⟨.ok d, goodSt (saveUrlStore d s),
       [Ev.acquire, Ev.readF, Ev.release, Ev.acquire, Ev.writeF, Ev.release]⟩ := rfl

theorem registerClick_good_found {c : String} {s : Store} {r : UrlRecord}
    (h : s.urls.find? (fun item => item.code == c) = some r) :
    registerClick c (goodSt s) =
      ⟨.ok (), goodSt (registerClickStore c s),
       [Ev.acquire, Ev.readF, Ev.release, Ev.acquire, Ev.writeF, Ev.release]⟩ := by
  simp only [registerClick, readDB_good, h, writeDB_good]
  rfl

theorem registerClick_good_none {c : String} {s : Store}
    (h : s.urls.find? (fun item => item.code == c) = none) :
    registerClick c (goodSt s) =
      ⟨.ok (), goodSt s, [Ev.acquire, Ev.readF, Ev.release]⟩ := by
  simp only [registerClick, readDB_good, h]

theorem registerClickState_good (c : String) (s : Store) :
    registerClickState c (goodSt s) = goodSt (registerClickStore c s) := by
  cases hf : s.urls.find? (fun item => item.code == c) with
  | some r => rw [registerClickState, registerClick_good_found hf]
  | none =>
    rw [registerClickState, registerClick_good_none hf]
    have : registerClickStore c s = s := by
      simp [registerClickStore, incFirst_of_find?_none hf]
    rw [this]

theorem registerClickState_iterate (c : String) (K : Nat) (s : Store) :
    (registerClickState c)^[K] (goodSt s) = goodSt ((registerClickStore c)^[K] s) := by
  induction K generalizing s with
  | zero => rfl
  | succ k ih =>
    rw [Function.iterate_succ_apply, Function.iterate_succ_apply,
      registerClickState_good, ih]

theorem find?_registerClickStore_iterate {c : String} {s : Store} {r : UrlRecord}
    (K : Nat) (h : s.urls.find? (fun x => x.code == c) = some r) :
    ((registerClickStore c)^[K] s).urls.find? (fun x => x.code == c) =
      some { r with clicks := r.clicks + K } := by
  induction K generalizing s r with
  | zero =>
    rw [Function.iterate_zero_apply]
    exact h
  | succ k ih =>
    rw [Function.iterate_succ_apply]
    have h1 : (registerClickStore c s).urls.find? (fun x => x.code == c) =
        some { r with clicks := r.clicks + 1 } := find?_incFirst h
    rw [ih h1, show r.clicks + 1 + k = r.clicks + (k + 1) from by omega]

theorem codesOf_saveUrlStore (d : UrlRecord) (s : Store) :
    codesOf (saveUrlStore d s) = codesOf s ++ [d.code] := by
  simp [codesOf, saveUrlStore]

theorem originalsOf_saveUrlStore (d : UrlRecord) (s : Store) :
    originalsOf (saveUrlStore d s) = originalsOf s ++ [d.original] := by
  simp [originalsOf, saveUrlStore]

theorem codesOf_registerClickStore (c : String) (s : Store) :
    codesOf (registerClickStore c s) = codesOf s := by
  simp [codesOf, registerClickStore, incFirst_map_code]

theorem originalsOf_registerClickStore (c : String) (s : Store) :
    originalsOf (registerClickStore c s) = originalsOf s := by
  simp [originalsOf, registerClickStore, incFirst_map_original]

theorem genLoop_good (cands : List String) (s : Store) :
    genLoop cands (goodSt s) = (.ok (pickCode cands s), goodSt s) := by
  induction cands with
  | nil => rfl
  | cons c cs ih =>
    simp only [genLoop, findCode_good, pickCode]
    split <;> simp_all

theorem digitChar36_mem : ∀ d : Fin 36, digitChar36 d ∈ base36Digits := by decide

theorem readDB_st (st : SysState) : (readDB st).st = { st with locked := false } := by
  unfold readDB
  split
  · rfl
  · split <;> rfl

theorem writeDB_st_locked (d : Store) (st : SysState) :
    (writeDB d st).st.locked = false := by
  unfold writeDB
  split <;> rfl

theorem findUrl_st (u : String) (st : SysState) :
    (findUrl u st).st = { st with locked := false } := by
  simp only [findUrl]
  cases (readDB st).res <;> simp [readDB_st]

theorem findCode_st (c : String) (st : SysState) :
    (findCode c st).st = { st with locked := false } := by
  simp only [findCode]
  cases (readDB st).res <;> simp [readDB_st]

theorem saveUrl_st_locked (d : UrlRecord) (st : SysState) :
    (saveUrl d st).st.locked = false := by
  simp only [saveUrl]
  split
  · split <;> simp [writeDB_st_locked]
  · simp [readDB_st]

theorem registerClick_st_locked (c : String) (st : SysState) :
    (registerClick c st).st.locked = false := by
  simp only [registerClick]
  split
  · split
    · simp [writeDB_st_locked]
    · simp [readDB_st]
  · simp [readDB_st]

/-! ### Claim theorems -/

/-- C3 counterexample: with the backing file present but holding content that
does not deserialize, `findCode` throws the parse failure instead of returning
absent — `JSON.parse` sits outside the `readFile` catch
(src/acortador.js lines 329-333). -/
theorem C3_counterexample :
    (findCode "ab12cd" { file := .present Content.bad, locked := false }).res =
      .err DbError.parseError ∧
    (findCode "ab12cd" { file := .present Content.bad, locked := false }).res ≠
      .ok none := by
  exact ⟨rfl, by decide⟩

/-- C3 amended: the empty-store substitution happens only when *reading* the
backing file fails (e.g. the file is absent) — then `findCode` returns absent
for every code and the file is untouched.  Content that is read successfully
but cannot be deserialized makes `findCode` propagate a parse failure (with
the lock released and the file unchanged). -/
theorem C3_read_failure_fallback (c : String) :
    (findCode c { file := .absent, locked := false }).res = .ok none ∧
    (findCode c { file := .absent, locked := false }).st =
      { file := .absent, locked := false } ∧
    (findCode c { file := .present Content.bad, locked := false }).res =
      .err DbError.parseError ∧
    (findCode c { file := .present Content.bad, locked := false }).st =
      { file := .present Content.bad, locked := false } :=
  ⟨rfl, rfl, rfl, rfl⟩

/-- C5 counterexample: the random value 1/2 has base-36 expansion `"0.i"`, so
`Math.random().toString(36).substring(2, 8)` yields the 1-character code
`"i"`, not a 6-character one. -/
theorem C5_counterexample :
    generateCode [(18 : Fin 36)] = "i" ∧
    (generateCode [(18 : Fin 36)]).length ≠ 6 :=
  ⟨rfl, by decide⟩

/-- C5 amended: every generated code has at most 6 characters, all drawn from
the base-36 alphabet of digits and lowercase letters; it has exactly 6
characters precisely when the random value's base-36 fractional expansion has
at least 6 digits, and is shorter (possibly empty) otherwise. -/
theorem C5_code_shape (digits : List (Fin 36)) :
    (generateCode digits).length ≤ 6 ∧
    (6 ≤ digits.length → (generateCode digits).length = 6) ∧
    ∀ ch ∈ (generateCode digits).toList, ch ∈ base36Digits := by
  cases digits with
  | nil =>
    refine ⟨by decide, fun h => absurd h (by decide), fun ch hch => ?_⟩
    simp [generateCode, generateCodeChars, randToString36Chars] at hch
  | cons d ds =>
    have hchars : generateCodeChars (d :: ds) = ((d :: ds).map digitChar36).take 6 := by
      simp [generateCodeChars, randToString36Chars]
    have hlen : (generateCode (d :: ds)).length =
        (((d :: ds).map digitChar36).take 6).length := by
      simp [generateCode, hchars, String.length]
    refine ⟨?_, fun h => ?_, fun ch hch => ?_⟩
    · rw [hlen, List.length_take]
      exact Nat.min_le_left _ _
    · rw [hlen, List.length_take, List.length_map]
      exact Nat.min_eq_left h
    · have : ch ∈ generateCodeChars (d :: ds) := hch
      rw [hchars] at this
      have hmem : ch ∈ (d :: ds).map digitChar36 := List.mem_of_mem_take this
      obtain ⟨dd, _, hdd⟩ := List.mem_map.mp hmem
      exact hdd ▸ digitChar36_mem dd

/-- C5 witness: a 7-digit expansion yields a code of exactly 6 base-36
characters. -/
theorem C5_witness :
    (generateCode [0, 1, 2, 3, 4, 5, 6]).length ≤ 6 ∧
    (generateCode [0, 1, 2, 3, 4, 5, 6]).length = 6 :=
  ⟨(C5_code_shape [0, 1, 2, 3, 4, 5, 6]).1,
   (C5_code_shape [0, 1, 2, 3, 4, 5, 6]).2.1 (by decide)⟩

/-- C8: every storage operation leaves the lock free on every exit path —
success, parse failure, and lock timeout alike (the `finally` blocks at
src/acortador.js lines 334-337 and 345-347) — so a fresh accessor can acquire
it afterwards. -/
theorem C8_lock_always_released (st : SysState) (d : UrlRecord) (s : Store)
    (c u : String) :
    (readDB st).st.locked = false ∧
    (writeDB s st).st.locked = false ∧
    (findUrl u st).st.locked = false ∧
    (findCode c st).st.locked = false ∧
    (saveUrl d st).st.locked = false ∧
    (registerClick c st).st.locked = false := by
  refine ⟨?_, writeDB_st_locked s st, ?_, ?_, saveUrl_st_locked d st,
    registerClick_st_locked c st⟩
  · rw [readDB_st]
  · rw [findUrl_st]
  · rw [findCode_st]

/-- C9: `initDB` writes the empty structure only when the backing file is
absent; an existing file — whatever its content, including a populated or
corrupt store — is left exactly as it was (src/acortador.js lines 306-320). -/
theorem C9_initDB_idempotent (st : SysState) :
    (st.file = .absent →
      initDB st = { st with file := .present (.good emptyStore) }) ∧
    ∀ c : Content, st.file = .present c → initDB st = st := by
  rcases st with ⟨file, locked⟩
  cases file <;> simp [initDB]

/-- C9 witness: creating from absent, and leaving a populated file alone. -/
theorem C9_witness :
    initDB { file := .absent, locked := false } =
      { file := .present (.good emptyStore), locked := false } ∧
    initDB { file := .present (.good storeEx), locked := false } =
      { file := .present (.good storeEx), locked := false } :=
  ⟨(C9_initDB_idempotent { file := .absent, locked := false }).1 rfl,
   (C9_initDB_idempotent { file := .present (.good storeEx), locked := false }).2
     (.good storeEx) rfl⟩

/-- C10: when the record sequence contains duplicates for an original URL,
`findUrl` returns the record that appears earliest in the sequence
(`Array.prototype.find`, src/acortador.js line 353). -/
theorem C10_findUrl_first_match (s : Store) (u : String) (l₁ l₂ : List UrlRecord)
    (r : UrlRecord) (hs : s.urls = l₁ ++ r :: l₂)
    (h₁ : ∀ x ∈ l₁, x.original ≠ u) (hr : r.original = u) :
    (findUrl u (goodSt s)).res = .ok (some r) := by
  rw [findUrl_good]
  have hnone : l₁.find? (fun item => item.original == u) = none := by
    apply List.find?_eq_none.mpr
    intro x hx
    simp [h₁ x hx]
  simp only [hs, find?_append_of_none hnone, List.find?_cons, hr]
  simp

/-- C10 witness: with two records sharing an original, the first is
returned. -/
theorem C10_witness :
    (findUrl "https://example.com/"
      (goodSt { urls := [dupA, dupB], codes := [] })).res = .ok (some dupA) :=
  C10_findUrl_first_match { urls := [dupA, dupB], codes := [] }
    "https://example.com/" [] [dupB] dupA rfl (by simp) rfl

/-- C1 counterexample: inserting a record whose `original` (already under
another code) is present in the store appends a second record and returns the
new one — `saveUrl` performs no re-validation whatsoever (src/acortador.js
lines 363-371). -/
theorem C1_counterexample :
    (saveUrl recDup (goodSt storeEx)).res = .ok recDup ∧
    recDup ≠ recEx ∧
    (saveUrl recDup (goodSt storeEx)).st =
      goodSt { urls := [recEx, recDup],
               codes := [("abc123", "https://example.com/"),
                         ("zz9999", "https://example.com/")] } ∧
    List.countP (fun r => r.original == "https://example.com/")
      [recEx, recDup] = 2 := by
  refine ⟨rfl, by decide, by decide, by decide⟩

/-- C1 amended: `saveUrl` performs no duplicate check: it unconditionally
appends the record to the sequence, points the index entry for its code at the
new original, persists, and returns the record that was passed in — so when
the original already occurs in the store, the store afterwards holds at least
two records with that original. -/
theorem C1_saveUrl_no_revalidation (s : Store) (d : UrlRecord)
    (h : d.original ∈ originalsOf s) :
    (saveUrl d (goodSt s)).res = .ok d ∧
    (saveUrl d (goodSt s)).st = goodSt (saveUrlStore d s) ∧
    2 ≤ (originalsOf (saveUrlStore d s)).count d.original := by
  refine ⟨by rw [saveUrl_good], by rw [saveUrl_good], ?_⟩
  rw [originalsOf_saveUrlStore, List.count_append]
  have h1 : 0 < (originalsOf s).count d.original := List.count_pos_iff.mpr h
  have h2 : List.count d.original [d.original] = 1 := by simp
  omega

/-- C1 witness: the amended statement at the concrete duplicate insert. -/
theorem C1_witness :
    (saveUrl recDup (goodSt storeEx)).res = .ok recDup ∧
    (saveUrl recDup (goodSt storeEx)).st = goodSt (saveUrlStore recDup storeEx) ∧
    2 ≤ (originalsOf (saveUrlStore recDup storeEx)).count recDup.original :=
  C1_saveUrl_no_revalidation storeEx recDup (by decide)

/-- C2 counterexample: a store reached from the empty store by two inserts
sharing an original URL violates the uniqueness invariant — the storage
operations do not preserve it. -/
theorem C2_counterexample :
    Reachable (saveUrlStore dupB (saveUrlStore dupA emptyStore)) ∧
    ¬ UniqStore (saveUrlStore dupB (saveUrlStore dupA emptyStore)) :=
  ⟨Reachable.save dupB (Reachable.save dupA Reachable.init), by decide⟩

/-- C2 amended: uniqueness of codes and originals holds in every store
reached from the empty store provided each insert is called only with a code
and an original that are absent at insertion time (the guard the sequential
shorten flow provides); `registerClick` always preserves it.  `saveUrl` itself
enforces nothing. -/
theorem C2_uniqueness_under_guarded_inserts (s : Store)
    (h : ReachableFresh s) : UniqStore s := by
  induction h with
  | init => exact ⟨List.nodup_nil, List.nodup_nil⟩
  | save d hrf hc ho ih =>
    obtain ⟨ihc, iho⟩ := ih
    refine ⟨?_, ?_⟩
    · rw [codesOf_saveUrlStore]
      simp [List.nodup_append, ihc, hc]
    · rw [originalsOf_saveUrlStore]
      simp [List.nodup_append, iho, ho]
  | click c hrf ih =>
    refine ⟨?_, ?_⟩
    · rw [codesOf_registerClickStore]
      exact ih.1
    · rw [originalsOf_registerClickStore]
      exact ih.2

/-- C2 witness: a store built by one guarded insert satisfies uniqueness. -/
theorem C2_witness : UniqStore (saveUrlStore dupA emptyStore) :=
  C2_uniqueness_under_guarded_inserts (saveUrlStore dupA emptyStore)
    (ReachableFresh.save dupA ReachableFresh.init (by decide) (by decide))

/-- C4 counterexample: one `saveUrl` call acquires the lock twice, not once —
its event trace releases the lock after the read and re-acquires it for the
write (src/acortador.js lines 364 and 369 call the separately-locked `readDB`
and `writeDB`). -/
theorem C4_counterexample :
    (saveUrl recEx (goodSt emptyStore)).tr =
      [Ev.acquire, Ev.readF, Ev.release, Ev.acquire, Ev.writeF, Ev.release] ∧
    (saveUrl recEx (goodSt emptyStore)).tr.count Ev.acquire ≠ 1 := by
  refine ⟨rfl, by decide⟩

/-- C4 amended: `saveUrl` and `registerClick` each run the read and the write
in two separate critical sections: the lock is acquired around the read,
released, then re-acquired around the persisting write — the lock is free in
the window between; when `registerClick` finds no record it takes only the
read section. -/
theorem C4_two_critical_sections (d : UrlRecord) (c : String) (s : Store)
    (r : UrlRecord) :
    (saveUrl d (goodSt s)).tr =
      [Ev.acquire, Ev.readF, Ev.release, Ev.acquire, Ev.writeF, Ev.release] ∧
    (s.urls.find? (fun item => item.code == c) = some r →
      (registerClick c (goodSt s)).tr =
        [Ev.acquire, Ev.readF, Ev.release, Ev.acquire, Ev.writeF, Ev.release]) ∧
    (s.urls.find? (fun item => item.code == c) = none →
      (registerClick c (goodSt s)).tr = [Ev.acquire, Ev.readF, Ev.release]) := by
  refine ⟨by rw [saveUrl_good], fun h => by rw [registerClick_good_found h],
    fun h => by rw [registerClick_good_none h]⟩

/-- C4 witness: the amended statement at concrete calls (record found and not
found). -/
theorem C4_witness :
    (saveUrl recEx (goodSt emptyStore)).tr =
      [Ev.acquire, Ev.readF, Ev.release, Ev.acquire, Ev.writeF, Ev.release] ∧
    (registerClick "abc123" (goodSt storeEx)).tr =
      [Ev.acquire, Ev.readF, Ev.release, Ev.acquire, Ev.writeF, Ev.release] ∧
    (registerClick "zz9999" (goodSt storeEx)).tr =
      [Ev.acquire, Ev.readF, Ev.release] :=
  ⟨(C4_two_critical_sections recEx "abc123" emptyStore recEx).1,
   (C4_two_critical_sections recEx "abc123" storeEx recEx).2.1 rfl,
   (C4_two_critical_sections recEx "zz9999" storeEx recEx).2.2 rfl⟩

/-- C6: on a store whose first record for a code has `clicks = 0`, K
sequential `registerClick` calls leave that record with `clicks = K`; on a
code present in no record, `registerClick` succeeds and changes nothing
(src/acortador.js lines 374-382). -/
theorem C6_click_monotonicity (s : Store) (c : String) (r : UrlRecord) (K : Nat) :
    (s.urls.find? (fun x => x.code == c) = some r → r.clicks = 0 →
      (registerClickState c)^[K] (goodSt s) =
        goodSt ((registerClickStore c)^[K] s) ∧
      ((registerClickStore c)^[K] s).urls.find? (fun x => x.code == c) =
        some { r with clicks := K }) ∧
    (s.urls.find? (fun x => x.code == c) = none →
      registerClick c (goodSt s) =
        ⟨.ok (), goodSt s, [Ev.acquire, Ev.readF, Ev.release]⟩) := by
  constructor
  · intro h h0
    refine ⟨registerClickState_iterate c K s, ?_⟩
    have hh := find?_registerClickStore_iterate K h
    rwa [h0, Nat.zero_add] at hh
  · intro h
    exact registerClick_good_none h

/-- C6 witness: three clicks on the sample store reach `clicks = 3`; a click
on an unknown code is a no-op. -/
theorem C6_witness :
    ((registerClickState "abc123")^[3] (goodSt storeEx) =
        goodSt ((registerClickStore "abc123")^[3] storeEx) ∧
      ((registerClickStore "abc123")^[3] storeEx).urls.find?
          (fun x => x.code == "abc123") = some { recEx with clicks := 3 }) ∧
    registerClick "zz9999" (goodSt storeEx) =
      ⟨.ok (), goodSt storeEx, [Ev.acquire, Ev.readF, Ev.release]⟩ :=
  ⟨(C6_click_monotonicity storeEx "abc123" recEx 3).1 rfl rfl,
   (C6_click_monotonicity storeEx "zz9999" recEx 0).2 rfl⟩

/-- C7: from a store not yet containing the URL, running the shorten flow
(find-by-url, generation loop, insert) creates and returns one new record, and
running it again with the same URL returns that same record while leaving the
store untouched — the record sequence grows by exactly one across the two
calls (src/acortador.js lines 60-103). -/
theorem C7_shorten_idempotent (s : Store) (u baseUrl t t2 c : String)
    (cands cands2 : List String)
    (h1 : s.urls.find? (fun r => r.original == u) = none)
    (h2 : pickCode cands s = some c) :
    shorten cands baseUrl u t (goodSt s) =
      (.ok (.created (mkUrlData u (baseUrl ++ "/r/" ++ c) c t)),
       goodSt (saveUrlStore (mkUrlData u (baseUrl ++ "/r/" ++ c) c t) s)) ∧
    shorten cands2 baseUrl u t2
        (goodSt (saveUrlStore (mkUrlData u (baseUrl ++ "/r/" ++ c) c t) s)) =
      (.ok (.existing (mkUrlData u (baseUrl ++ "/r/" ++ c) c t)),
       goodSt (saveUrlStore (mkUrlData u (baseUrl ++ "/r/" ++ c) c t) s)) ∧
    (saveUrlStore (mkUrlData u (baseUrl ++ "/r/" ++ c) c t) s).urls.length =
      s.urls.length + 1 := by
  have hfind : (saveUrlStore (mkUrlData u (baseUrl ++ "/r/" ++ c) c t) s).urls.find?
      (fun r => r.original == u) = some (mkUrlData u (baseUrl ++ "/r/" ++ c) c t) := by
    show (s.urls ++ [mkUrlData u (baseUrl ++ "/r/" ++ c) c t]).find?
      (fun r => r.original == u) = _
    rw [find?_append_of_none h1]
    simp [mkUrlData, List.find?_cons]
  refine ⟨?_, ?_, by simp [saveUrlStore]⟩
  · simp only [shorten, findUrl_good, h1, genLoop_good, h2, saveUrl_good, mkUrlData]
  · simp only [shorten, findUrl_good, hfind]

/-- C7 witness: the two-call scenario on the empty store with one candidate
code. -/
theorem C7_witness :
    shorten ["abc123"] "B" "https://example.com/" "t0" (goodSt emptyStore) =
      (.ok (.created (mkUrlData "https://example.com/" ("B" ++ "/r/" ++ "abc123")
         "abc123" "t0")),
       goodSt (saveUrlStore (mkUrlData "https://example.com/"
         ("B" ++ "/r/" ++ "abc123") "abc123" "t0") emptyStore)) ∧
    shorten [] "B" "https://example.com/" "t1"
        (goodSt (saveUrlStore (mkUrlData "https://example.com/"
          ("B" ++ "/r/" ++ "abc123") "abc123" "t0") emptyStore)) =
      (.ok (.existing (mkUrlData "https://example.com/" ("B" ++ "/r/" ++ "abc123")
         "abc123" "t0")),
       goodSt (saveUrlStore (mkUrlData "https://example.com/"
         ("B" ++ "/r/" ++ "abc123") "abc123" "t0") emptyStore)) ∧
    (saveUrlStore (mkUrlData "https://example.com/" ("B" ++ "/r/" ++ "abc123")
      "abc123" "t0") emptyStore).urls.length = emptyStore.urls.length + 1 :=
  C7_shorten_idempotent emptyStore "https://example.com/" "B" "t0" "t1" "abc123"
    ["abc123"] [] rfl rfl
